import Mathlib

/-!
Verification of the Personal Library Manager (src/app.py).

The application is a CRUD front-end over a single SQLite table

  books(id INTEGER PRIMARY KEY AUTOINCREMENT,
        title TEXT NOT NULL, author TEXT NOT NULL, genre TEXT NOT NULL,
        year INTEGER CHECK(year >= 1000 AND year <= 9999))

together with a Streamlit UI.  We embed the database state shallowly:

* a row is a `Book` record; `year` is `Option Int` because the column has a
  range CHECK but no NOT NULL constraint, so SQL NULL is representable;
* `DBState` carries the rows in rowid (insertion) order plus the
  AUTOINCREMENT sequence value (`seq` = largest id ever assigned; the next
  inserted row receives `seq + 1` and ids are never reused);
* `AppState` adds the process-local `st.cache_data` cache of `get_books`:
  `some l` means a cached result `l`, `none` means no cached entry.

Each database function of app.py becomes a Lean function on `AppState`;
statements that SQLite can abort with a constraint violation return
`Except DBError`.
-/

/-- One row of the `books` table. `year` is `Option Int`: the column admits
NULL (no NOT NULL constraint), non-NULL values must pass the range CHECK. -/
structure Book where
  id : Nat
  title : String
  author : String
  genre : String
  year : Option Int
deriving DecidableEq, Repr

/-- The persistent table: rows in rowid order plus the AUTOINCREMENT
sequence (largest id handed out so far). -/
structure DBState where
  rows : List Book
  seq : Nat
deriving DecidableEq, Repr

/-- Process state: the database plus the `st.cache_data` cache of
`get_books` (`none` = invalidated / empty). -/
structure AppState where
  db : DBState
  cache : Option (List Book)
deriving DecidableEq, Repr

/-- Errors surfaced by the storage layer. -/
inductive DBError where
  | constraintViolation
deriving DecidableEq, Repr

/-- The CHECK constraint `year >= 1000 AND year <= 9999` as SQLite
evaluates it: a NULL year makes the CHECK expression NULL, which does not
count as a violation, so only out-of-range integers are rejected. -/
def yearOk : Option Int → Bool
  | none => true
  | some y => 1000 ≤ y && y ≤ 9999

/-- `init_db` (app.py lines 10-23): fresh state, empty table, sequence 0,
no cached read. -/
def init_db : AppState := ⟨⟨[], 0⟩, none⟩

/-- `add_book` (app.py lines 28-34): INSERT a row (the store assigns
id `seq + 1`), commit, then clear the `get_books` cache.  The insert is
aborted with a constraint violation when the CHECK on `year` fails. -/
def add_book (title author genre : String) (year : Option Int) (s : AppState) :
    Except DBError AppState :=
  if yearOk year then
    .ok ⟨⟨s.db.rows ++ [⟨s.db.seq + 1, title, author, genre, year⟩], s.db.seq + 1⟩, none⟩
  else
    .error .constraintViolation

/-- `get_books` (app.py lines 36-43): `SELECT * FROM books` behind
`st.cache_data` — a cached result is returned as is; otherwise the rows are
read and memoised.  Returns the visible list together with the state. -/
def get_books (s : AppState) : List Book × AppState :=
  match s.cache with
  | some bs => (bs, s)
  | none => (s.db.rows, ⟨s.db, some s.db.rows⟩)

/-- `delete_book` (app.py lines 45-51): `DELETE FROM books WHERE id = ?`,
commit, clear the cache.  Deleting never touches the AUTOINCREMENT
sequence, so freed ids are not reused. -/
def delete_book (book_id : Nat) (s : AppState) : AppState :=
  ⟨⟨s.db.rows.filter (fun b => b.id ≠ book_id), s.db.seq⟩, none⟩

/-- `update_book` (app.py lines 53-59): `UPDATE books SET ... WHERE id = ?`,
commit, clear the cache.  The CHECK on `year` is evaluated only on rows the
statement actually updates, so an out-of-range year aborts the statement
exactly when some row matches the id; a no-match UPDATE succeeds
vacuously. -/
def update_book (book_id : Nat) (title author genre : String) (year : Option Int)
    (s : AppState) : Except DBError AppState :=
  if s.db.rows.any (fun b => b.id == book_id) && !yearOk year then
    .error .constraintViolation
  else
    .ok ⟨⟨s.db.rows.map (fun b =>
      if b.id = book_id then ⟨b.id, title, author, genre, year⟩ else b), s.db.seq⟩, none⟩

/-- Well-formedness maintained by the operations: every id in the table and
in any cached snapshot is bounded by the AUTOINCREMENT sequence. -/
def Wf (s : AppState) : Prop :=
  (∀ b ∈ s.db.rows, b.id ≤ s.db.seq) ∧
    (∀ l, s.cache = some l → ∀ b ∈ l, b.id ≤ s.db.seq)

/-! ### Add Book page (app.py lines 88-100)

The handler reads `title` and `author` as text inputs (empty string when
blank), `genre` from a select box initialised with `index=None` (so `None`
until a choice is made), and `year` from a slider over `[1000, 9999]`
(always populated).  On the button press it runs
`if title and author and genre:` — Python truthiness, i.e. the strings are
non-empty and a genre is selected — and only then calls `add_book`;
otherwise it shows a warning and writes nothing. -/

/-- Outcome reported by the Add page: a success message or the
"Please fill in all fields" warning. -/
inductive SubmitOutcome where
  | added
  | warned
deriving DecidableEq, Repr

/-- The Add-page submit handler. -/
def addPageSubmit (title author : String) (genre : Option String) (year : Int)
    (s : AppState) : Except DBError (AppState × SubmitOutcome) :=
  match genre with
  | some g =>
    if !title.isEmpty && !author.isEmpty then
      (add_book title author g (some year) s).map (fun s2 => (s2, .added))
    else
      .ok (s, .warned)
  | none => .ok (s, .warned)

/-! ### View Books page (app.py lines 103-116)

The page reads the rows and, for a non-empty query, keeps the rows where
`df["Title"].str.contains(q, case=False, na=False)` or the same on
`Author` holds.  pandas `Series.str.contains` defaults to `regex=True`, so
the query is compiled as a Python regular expression with `re.IGNORECASE`
and tested with `re.search` (match anywhere in the string).  We embed the
regex fragment the page's data can exercise: literal characters and the
metacharacter `.` (any character); queries built only from the remaining
literal characters are searched literally. -/

/-- One token of a compiled query: a literal character or `.`. -/
inductive Tok where
  | lit (c : Char)
  | any
deriving DecidableEq, Repr

/-- Python `re` metacharacters: a query avoiding all of these is matched
purely literally. -/
def metaChars : List Char :=
  ['.', '^', '$', '*', '+', '?', '\x7b', '\x7d', '[', ']', '\\', '|', '(', ')']

/-- Compile a query string to tokens (the fragment with `.` only). -/
def parsePat (q : String) : List Tok :=
  q.data.map (fun c => if c = '.' then Tok.any else Tok.lit c)

/-- Single-token match under `re.IGNORECASE` (ASCII case folding). -/
def tokMatches : Tok → Char → Bool
  | .any, _ => true
  | .lit c, d => c.toLower == d.toLower

/-- Match the whole token list against a prefix of the text. -/
def matchHere : List Tok → List Char → Bool
  | [], _ => true
  | _ :: _, [] => false
  | t :: ts, c :: cs => tokMatches t c && matchHere ts cs

/-- `re.search`: the pattern matches starting at some position. -/
def reSearch (p : List Tok) : List Char → Bool
  | [] => matchHere p []
  | c :: cs => matchHere p (c :: cs) || reSearch p cs

/-- `s.str.contains(q, case=False, na=False)` on one cell: case-insensitive
regex search of `q` in `hay`. -/
def strContainsCI (q hay : String) : Bool :=
  reSearch (parsePat q) hay.data

/-- The View page filter: for an empty query the table is shown unfiltered,
otherwise a row survives when the query matches its title or its author. -/
def viewFilter (q : String) (books : List Book) : List Book :=
  if q = "" then books
  else books.filter (fun b => strContainsCI q b.title || strContainsCI q b.author)

/-- Case-insensitive substring containment on character lists — the
spec-side notion ("contains the query as a case-insensitive substring"),
for comparison with the code's regex filter. -/
def isSub (q : List Char) : List Char → Bool
  | [] => q.isEmpty
  | c :: cs => q.isPrefixOf (c :: cs) || isSub q cs

/-- Case-insensitive substring containment on strings (spec-side). -/
def substrCI (q hay : String) : Bool :=
  isSub (q.data.map Char.toLower) (hay.data.map Char.toLower)

/-! ### Analytics page (app.py lines 159-168)

`df["Genre"].value_counts()` counts occurrences per distinct genre: the
distinct values are collected in first-seen order and the resulting counts
are sorted by count in descending order; the sort is stable on the small
frames the page produces, so ties keep the first-seen order.  We model it
as: distinct genres in first-seen order, paired with their counts, then a
stable insertion sort by descending count. -/

/-- Distinct elements of `l` in first-seen order (`seen` accumulates the
values already emitted). -/
def dedupFirst (seen : List String) : List String → List String
  | [] => []
  | g :: gs => if g ∈ seen then dedupFirst seen gs else g :: dedupFirst (g :: seen) gs

/-- The grouped result: each distinct genre, in first-seen order, with the
number of records bearing it. -/
def countsFirstSeen (gs : List String) : List (String × Nat) :=
  (dedupFirst [] gs).map (fun g => (g, gs.count g))

/-- Descending-count comparison used to order the bars. -/
def countGE (a b : String × Nat) : Prop := b.2 ≤ a.2

instance : DecidableRel countGE := fun a b => inferInstanceAs (Decidable (b.2 ≤ a.2))

instance : IsTotal (String × Nat) countGE := ⟨fun a b => Nat.le_total b.2 a.2⟩

instance : IsTrans (String × Nat) countGE := ⟨fun _ _ _ hab hbc => Nat.le_trans hbc hab⟩

/-- `value_counts` on a list of genres: grouped counts sorted by count,
descending, stably. -/
def valueCounts (gs : List String) : List (String × Nat) :=
  List.insertionSort countGE (countsFirstSeen gs)

/-- The Analytics grouping of a record list: `value_counts` of the Genre
column. -/
def genreCounts (books : List Book) : List (String × Nat) :=
  valueCounts (books.map Book.genre)

/-- The spec's sample record ("Dune", "Herbert"). -/
def duneBook : Book := ⟨1, "Dune", "Herbert", "Fiction", some 1965⟩

/-- The spec's sample record ("1984", "Orwell"). -/
def orwellBook : Book := ⟨2, "1984", "Orwell", "Fiction", some 1949⟩

/-- The spec's sample record list for the View filter. -/
def sampleBooks : List Book := [duneBook, orwellBook]

/-! ### Theorems -/

/-- Helper: a non-empty string is not `isEmpty`. -/
theorem isEmpty_false_of_ne (s : String) (h : s ≠ "") : s.isEmpty = false := by
  rw [Bool.eq_false_iff]
  intro hx
  exact h ((String.isEmpty_iff s).1 hx)

/-- C1: adding a valid book to any well-formed state succeeds, and
`get_books` afterwards contains a record with the submitted title, author,
genre and year whose id occurred in no record of `get_books` before the
add. -/
theorem C1_add_then_list_fresh (t a g : String) (y : Int) (s : AppState)
    (hw : Wf s) (ht : t ≠ "") (ha : a ≠ "") (hg : g ≠ "")
    (hy : 1000 ≤ y ∧ y ≤ 9999) :
    ∃ s2, add_book t a g (some y) s = .ok s2 ∧
      ∃ b ∈ (get_books s2).1,
        b.title = t ∧ b.author = a ∧ b.genre = g ∧ b.year = some y ∧
          ∀ c ∈ (get_books s).1, c.id ≠ b.id := by
  have hok : yearOk (some y) = true := by
    simp only [yearOk, Bool.and_eq_true, decide_eq_true_eq]
    exact ⟨hy.1, hy.2⟩
  refine ⟨⟨⟨s.db.rows ++ [⟨s.db.seq + 1, t, a, g, some y⟩], s.db.seq + 1⟩, none⟩,
    by simp [add_book, hok], ?_⟩
  refine ⟨⟨s.db.seq + 1, t, a, g, some y⟩, ?_, rfl, rfl, rfl, rfl, ?_⟩
  · simp [get_books]
  · intro c hc
    show c.id ≠ s.db.seq + 1
    have hle : c.id ≤ s.db.seq := by
      rcases hcache : s.cache with _ | l
      · simp only [get_books, hcache] at hc
        exact hw.1 c hc
      · simp only [get_books, hcache] at hc
        exact hw.2 l hcache c hc
    omega

/-- Witness for C1 at a concrete input. -/
theorem C1_witness :
    (Wf init_db ∧ "Dune" ≠ "" ∧ "Herbert" ≠ "" ∧ "Fiction" ≠ "" ∧
      (1000 ≤ (1965 : Int) ∧ (1965 : Int) ≤ 9999)) ∧
    ∃ s2, add_book "Dune" "Herbert" "Fiction" (some 1965) init_db = .ok s2 ∧
      ∃ b ∈ (get_books s2).1,
        b.title = "Dune" ∧ b.author = "Herbert" ∧ b.genre = "Fiction" ∧
          b.year = some 1965 ∧ ∀ c ∈ (get_books init_db).1, c.id ≠ b.id :=
  ⟨⟨⟨by simp [init_db], by simp [init_db]⟩, by decide, by decide, by decide, by decide⟩,
    C1_add_then_list_fresh "Dune" "Herbert" "Fiction" 1965 init_db
      ⟨by simp [init_db], by simp [init_db]⟩ (by decide) (by decide) (by decide) (by decide)⟩

/-- C2: with non-empty title, author and genre, `add_book` rejects years
999 and 10000 with a constraint violation (no row inserted: no successor
state is produced), while years 1000 and 9999 both succeed and append
exactly one row with the submitted values. -/
theorem C2_year_boundaries (t a g : String) (s : AppState)
    (ht : t ≠ "") (ha : a ≠ "") (hg : g ≠ "") :
    add_book t a g (some 999) s = .error .constraintViolation ∧
    add_book t a g (some 10000) s = .error .constraintViolation ∧
    (∃ s2, add_book t a g (some 1000) s = .ok s2 ∧
      s2.db.rows = s.db.rows ++ [⟨s.db.seq + 1, t, a, g, some 1000⟩]) ∧
    (∃ s2, add_book t a g (some 9999) s = .ok s2 ∧
      s2.db.rows = s.db.rows ++ [⟨s.db.seq + 1, t, a, g, some 9999⟩]) := by
  refine ⟨?_, ?_,
    ⟨⟨⟨s.db.rows ++ [⟨s.db.seq + 1, t, a, g, some 1000⟩], s.db.seq + 1⟩, none⟩, ?_, rfl⟩,
    ⟨⟨⟨s.db.rows ++ [⟨s.db.seq + 1, t, a, g, some 9999⟩], s.db.seq + 1⟩, none⟩, ?_, rfl⟩⟩ <;>
    simp [add_book, yearOk]

/-- Witness for C2 at a concrete input. -/
theorem C2_year_boundaries_witness :
    ("t" ≠ "" ∧ "a" ≠ "" ∧ "g" ≠ "") ∧
    (add_book "t" "a" "g" (some 999) init_db = .error .constraintViolation ∧
      add_book "t" "a" "g" (some 10000) init_db = .error .constraintViolation ∧
      (∃ s2, add_book "t" "a" "g" (some 1000) init_db = .ok s2 ∧
        s2.db.rows = init_db.db.rows ++ [⟨init_db.db.seq + 1, "t", "a", "g", some 1000⟩]) ∧
      (∃ s2, add_book "t" "a" "g" (some 9999) init_db = .ok s2 ∧
        s2.db.rows = init_db.db.rows ++ [⟨init_db.db.seq + 1, "t", "a", "g", some 9999⟩])) :=
  ⟨⟨by decide, by decide, by decide⟩,
    C2_year_boundaries "t" "a" "g" init_db (by decide) (by decide) (by decide)⟩

/-- C3: every successful write clears the `get_books` cache, so a read
performed on the post-write state returns exactly the post-write table
contents, never a stale snapshot. -/
theorem C3_writes_invalidate_cache :
    (∀ t a g y s s2, add_book t a g y s = .ok s2 → (get_books s2).1 = s2.db.rows) ∧
    (∀ i t a g y s s2, update_book i t a g y s = .ok s2 → (get_books s2).1 = s2.db.rows) ∧
    (∀ i s, (get_books (delete_book i s)).1 = (delete_book i s).db.rows) := by
  refine ⟨?_, ?_, ?_⟩
  · intro t a g y s s2 h
    unfold add_book at h
    split at h
    · cases h
      rfl
    · cases h
  · intro i t a g y s s2 h
    unfold update_book at h
    split at h
    · cases h
    · cases h
      rfl
  · intro i s
    rfl

/-- Witness for C3 at a concrete input. -/
theorem C3_witness :
    (get_books (⟨⟨[⟨1, "t", "a", "g", some 1500⟩], 1⟩, none⟩ : AppState)).1 =
      (⟨⟨[⟨1, "t", "a", "g", some 1500⟩], 1⟩, none⟩ : AppState).db.rows :=
  C3_writes_invalidate_cache.1 "t" "a" "g" (some 1500) init_db
    ⟨⟨[⟨1, "t", "a", "g", some 1500⟩], 1⟩, none⟩ (by simp [add_book, init_db, yearOk])

/-- C4: on an id matching no stored record, `delete_book` leaves the
database unchanged, and `update_book` with a valid year returns without
error and leaves the database unchanged (zero rows affected; no NotFound
error exists in the model). -/
theorem C4_missing_id_noop (i : Nat) (t a g : String) (y : Option Int) (s : AppState)
    (hmiss : ∀ b ∈ s.db.rows, b.id ≠ i) (hy : yearOk y = true) :
    (delete_book i s).db = s.db ∧
    ∃ s2, update_book i t a g y s = .ok s2 ∧ s2.db = s.db := by
  have hfilter : s.db.rows.filter (fun b => b.id ≠ i) = s.db.rows := by
    rw [List.filter_eq_self]
    intro b hb
    simpa using hmiss b hb
  have hmap : (s.db.rows.map (fun b =>
      if b.id = i then ⟨b.id, t, a, g, y⟩ else b)) = s.db.rows := by
    rw [show s.db.rows = s.db.rows.map id from (List.map_id _).symm]
    rw [List.map_map]
    exact List.map_congr_left (fun b hb => by simp [hmiss b hb])
  constructor
  · show (⟨s.db.rows.filter (fun b => b.id ≠ i), s.db.seq⟩ : DBState) = s.db
    rw [hfilter]
  · refine ⟨⟨⟨s.db.rows.map (fun b =>
      if b.id = i then ⟨b.id, t, a, g, y⟩ else b), s.db.seq⟩, none⟩, ?_, ?_⟩
    · unfold update_book
      rw [if_neg]
      simp only [Bool.and_eq_true, List.any_eq_true, not_and, Bool.not_eq_true]
      intro hany
      exfalso
      obtain ⟨b, hb, hbid⟩ := hany
      exact hmiss b hb (by simpa using hbid)
    · show (⟨s.db.rows.map (fun b =>
        if b.id = i then ⟨b.id, t, a, g, y⟩ else b), s.db.seq⟩ : DBState) = s.db
      rw [hmap]

/-- Witness for C4 at a concrete input. -/
theorem C4_witness :
    ((∀ b ∈ (⟨⟨[⟨1, "t", "a", "g", some 1500⟩], 1⟩, none⟩ : AppState).db.rows, b.id ≠ 7) ∧
      yearOk (some 1700) = true) ∧
    ((delete_book 7 (⟨⟨[⟨1, "t", "a", "g", some 1500⟩], 1⟩, none⟩ : AppState)).db =
        (⟨⟨[⟨1, "t", "a", "g", some 1500⟩], 1⟩, none⟩ : AppState).db ∧
      ∃ s2, update_book 7 "x" "y" "z" (some 1700)
          (⟨⟨[⟨1, "t", "a", "g", some 1500⟩], 1⟩, none⟩ : AppState) = .ok s2 ∧
        s2.db = (⟨⟨[⟨1, "t", "a", "g", some 1500⟩], 1⟩, none⟩ : AppState).db) :=
  ⟨⟨by decide, by decide⟩,
    C4_missing_id_noop 7 "x" "y" "z" (some 1700)
      ⟨⟨[⟨1, "t", "a", "g", some 1500⟩], 1⟩, none⟩ (by decide) (by decide)⟩

/-- C5: the id assigned by a successful add is `seq + 1`; deleting it and
reading afterwards yields no record with that id, and repeating the delete
leaves the state exactly unchanged (idempotence). -/
theorem C5_delete_then_gone_and_idempotent (t a g : String) (y : Option Int)
    (s s1 : AppState) (h : add_book t a g y s = .ok s1) :
    (∃ b ∈ s1.db.rows, b.id = s.db.seq + 1) ∧
    (∀ b ∈ (get_books (delete_book (s.db.seq + 1) s1)).1, b.id ≠ s.db.seq + 1) ∧
    delete_book (s.db.seq + 1) (delete_book (s.db.seq + 1) s1) =
      delete_book (s.db.seq + 1) s1 := by
  refine ⟨?_, ?_, ?_⟩
  · unfold add_book at h
    split at h
    · cases h
      exact ⟨⟨s.db.seq + 1, t, a, g, y⟩, by simp, rfl⟩
    · cases h
  · intro b hb
    have : b ∈ s1.db.rows.filter (fun c => c.id ≠ s.db.seq + 1) := hb
    simpa using (List.mem_filter.1 this).2
  · show (⟨⟨(s1.db.rows.filter (fun c => c.id ≠ s.db.seq + 1)).filter
        (fun c => c.id ≠ s.db.seq + 1), s1.db.seq⟩, none⟩ : AppState) = _
    have : (s1.db.rows.filter (fun c => c.id ≠ s.db.seq + 1)).filter
        (fun c => c.id ≠ s.db.seq + 1) =
        s1.db.rows.filter (fun c => c.id ≠ s.db.seq + 1) :=
      List.filter_eq_self.2 (fun b hb => (List.mem_filter.1 hb).2)
    rw [this]
    rfl

/-- Witness for C5 at a concrete input. -/
theorem C5_witness :
    add_book "t" "a" "g" (some 1500) init_db =
      .ok (⟨⟨[⟨1, "t", "a", "g", some 1500⟩], 1⟩, none⟩ : AppState) ∧
    ((∃ b ∈ (⟨⟨[⟨1, "t", "a", "g", some 1500⟩], 1⟩, none⟩ : AppState).db.rows,
        b.id = init_db.db.seq + 1) ∧
      (∀ b ∈ (get_books (delete_book (init_db.db.seq + 1)
          (⟨⟨[⟨1, "t", "a", "g", some 1500⟩], 1⟩, none⟩ : AppState))).1,
        b.id ≠ init_db.db.seq + 1) ∧
      delete_book (init_db.db.seq + 1) (delete_book (init_db.db.seq + 1)
          (⟨⟨[⟨1, "t", "a", "g", some 1500⟩], 1⟩, none⟩ : AppState)) =
        delete_book (init_db.db.seq + 1)
          (⟨⟨[⟨1, "t", "a", "g", some 1500⟩], 1⟩, none⟩ : AppState)) :=
  ⟨by simp [add_book, init_db, yearOk],
    C5_delete_then_gone_and_idempotent "t" "a" "g" (some 1500) init_db
      ⟨⟨[⟨1, "t", "a", "g", some 1500⟩], 1⟩, none⟩
      (by simp [add_book, init_db, yearOk])⟩

/-- C6: updating a stored id with valid fields succeeds; reading back, the
record with that id carries exactly the new title, author, genre and year
(the id itself unchanged), and every record with a different id is in the
table after the update exactly when it was before. -/
theorem C6_update_frame (i : Nat) (t a g : String) (y : Option Int)
    (s : AppState) (b0 : Book)
    (hb : b0 ∈ s.db.rows) (hid : b0.id = i) (hy : yearOk y = true) :
    ∃ s2, update_book i t a g y s = .ok s2 ∧
      (∃ c ∈ (get_books s2).1, c.id = i) ∧
      (∀ c ∈ (get_books s2).1, c.id = i → c = ⟨i, t, a, g, y⟩) ∧
      (∀ c : Book, c.id ≠ i → (c ∈ s2.db.rows ↔ c ∈ s.db.rows)) := by
  refine ⟨⟨⟨s.db.rows.map (fun b =>
      if b.id = i then ⟨b.id, t, a, g, y⟩ else b), s.db.seq⟩, none⟩, ?_, ?_, ?_, ?_⟩
  · unfold update_book
    rw [if_neg]
    simp [hy]
  · refine ⟨⟨b0.id, t, a, g, y⟩, ?_, hid⟩
    show _ ∈ s.db.rows.map _
    exact List.mem_map.2 ⟨b0, hb, by simp [hid]⟩
  · intro c hc hci
    have hc2 : c ∈ s.db.rows.map (fun b =>
        if b.id = i then ⟨b.id, t, a, g, y⟩ else b) := hc
    obtain ⟨d, hd, hdc⟩ := List.mem_map.1 hc2
    by_cases hdi : d.id = i
    · rw [if_pos hdi] at hdc
      rw [← hdc, hdi]
    · rw [if_neg hdi] at hdc
      exact absurd (hdc ▸ hci) hdi
  · intro c hci
    constructor
    · intro hc
      obtain ⟨d, hd, hdc⟩ := List.mem_map.1 hc
      by_cases hdi : d.id = i
      · rw [if_pos hdi] at hdc
        exact absurd (by rw [← hdc]; exact hdi) hci
      · rw [if_neg hdi] at hdc
        exact hdc ▸ hd
    · intro hc
      exact List.mem_map.2 ⟨c, hc, by rw [if_neg hci]⟩

/-- Witness for C6 at a concrete input. -/
theorem C6_witness :
    ((⟨1, "t", "a", "g", some 1500⟩ : Book) ∈
        (⟨⟨[⟨1, "t", "a", "g", some 1500⟩], 1⟩, none⟩ : AppState).db.rows ∧
      (⟨1, "t", "a", "g", some 1500⟩ : Book).id = 1 ∧ yearOk (some 1700) = true) ∧
    ∃ s2, update_book 1 "x" "y" "z" (some 1700)
        (⟨⟨[⟨1, "t", "a", "g", some 1500⟩], 1⟩, none⟩ : AppState) = .ok s2 ∧
      (∃ c ∈ (get_books s2).1, c.id = 1) ∧
      (∀ c ∈ (get_books s2).1, c.id = 1 → c = ⟨1, "x", "y", "z", some 1700⟩) ∧
      (∀ c : Book, c.id ≠ 1 →
        (c ∈ s2.db.rows ↔
          c ∈ (⟨⟨[⟨1, "t", "a", "g", some 1500⟩], 1⟩, none⟩ : AppState).db.rows)) :=
  ⟨⟨by decide, by decide, by decide⟩,
    C6_update_frame 1 "x" "y" "z" (some 1700)
      ⟨⟨[⟨1, "t", "a", "g", some 1500⟩], 1⟩, none⟩ ⟨1, "t", "a", "g", some 1500⟩
      (by decide) (by decide) (by decide)⟩

/-- C9: the Add-page submit performs no write and reports the warning when
title or author is empty or no genre is selected — the state is returned
unchanged — and calls `add_book` exactly when all fields are populated. -/
theorem C9_add_page_validation (t a : String) (g : Option String) (y : Int)
    (s : AppState) :
    ((t = "" ∨ a = "" ∨ g = none) → addPageSubmit t a g y s = .ok (s, .warned)) ∧
    (∀ g0, g = some g0 → t ≠ "" → a ≠ "" →
      addPageSubmit t a g y s =
        (add_book t a g0 (some y) s).map (fun s2 => (s2, SubmitOutcome.added))) := by
  constructor
  · intro h
    cases g with
    | none => rfl
    | some g0 =>
      have hta : t = "" ∨ a = "" := by
        rcases h with h | h | h
        · exact .inl h
        · exact .inr h
        · cases h
      have hcond : ¬((!t.isEmpty && !a.isEmpty) = true) := by
        rcases hta with h | h
        · simp [(String.isEmpty_iff t).2 h]
        · simp [(String.isEmpty_iff a).2 h]
      show (if !t.isEmpty && !a.isEmpty then _ else _) = _
      rw [if_neg hcond]
  · intro g0 hg ht ha
    rw [hg]
    show (if !t.isEmpty && !a.isEmpty then _ else _) = _
    rw [if_pos (by simp [isEmpty_false_of_ne t ht, isEmpty_false_of_ne a ha])]

/-- Witness for C9 at a concrete input. -/
theorem C9_witness :
    (("" = "" ∨ "a" = "" ∨ (some "g" : Option String) = none) →
      addPageSubmit "" "a" (some "g") 1500 init_db = .ok (init_db, .warned)) ∧
    (∀ g0, (some "g" : Option String) = some g0 → "" ≠ "" → "a" ≠ "" →
      addPageSubmit "" "a" (some "g") 1500 init_db =
        (add_book "" "a" g0 (some 1500) init_db).map
          (fun s2 => (s2, SubmitOutcome.added))) :=
  C9_add_page_validation "" "a" (some "g") 1500 init_db

/-- C10: an insert with a NULL year succeeds — the CHECK constraint does
not reject NULL and `year` has no NOT NULL constraint — so a stored record
can exist with no year. -/
theorem C10_null_year_insert (t a g : String) (s : AppState) :
    ∃ s2, add_book t a g none s = .ok s2 ∧
      ∃ b ∈ s2.db.rows, b.id = s.db.seq + 1 ∧ b.year = none := by
  refine ⟨⟨⟨s.db.rows ++ [⟨s.db.seq + 1, t, a, g, none⟩], s.db.seq + 1⟩, none⟩, ?_, ?_⟩
  · simp [add_book, yearOk]
  · exact ⟨⟨s.db.seq + 1, t, a, g, none⟩, by simp, rfl, rfl⟩

/-! ### View filter: the code's regex search versus substring containment -/

/-- Helper: a query without `.` compiles to all-literal tokens. -/
theorem parsePat_of_no_dot (q : String) (h : '.' ∉ q.data) :
    parsePat q = q.data.map Tok.lit := by
  unfold parsePat
  refine List.map_congr_left (fun c hc => ?_)
  rw [if_neg]
  intro he
  subst he
  exact h hc

/-- Helper: an all-literal pattern matches a prefix exactly when the
lowercased pattern is a prefix of the lowercased text. -/
theorem matchHere_lit (p : List Char) (s : List Char) :
    matchHere (p.map Tok.lit) s =
      (p.map Char.toLower).isPrefixOf (s.map Char.toLower) := by
  induction p generalizing s with
  | nil => cases s <;> rfl
  | cons c cs ih =>
    cases s with
    | nil => rfl
    | cons d ds =>
      show (tokMatches (.lit c) d && matchHere (cs.map .lit) ds) = _
      simp only [List.map, List.isPrefixOf, tokMatches, ih]

/-- Helper: searching an all-literal pattern is case-insensitive substring
containment. -/
theorem reSearch_lit (p : List Char) (s : List Char) :
    reSearch (p.map Tok.lit) s = isSub (p.map Char.toLower) (s.map Char.toLower) := by
  induction s with
  | nil =>
    show matchHere (p.map Tok.lit) [] = _
    rw [matchHere_lit]
    cases p <;> rfl
  | cons c cs ih =>
    show (matchHere (p.map Tok.lit) (c :: cs) || reSearch (p.map Tok.lit) cs) = _
    rw [matchHere_lit, ih]
    rfl

/-- Helper: on queries free of regex metacharacters the code's filter
predicate coincides with case-insensitive substring containment. -/
theorem strContainsCI_eq_substrCI (q hay : String) (h : ∀ c ∈ q.data, c ∉ metaChars) :
    strContainsCI q hay = substrCI q hay := by
  have hdot : '.' ∉ q.data := fun hc => (h '.' hc) (by simp [metaChars])
  unfold strContainsCI substrCI
  rw [parsePat_of_no_dot q hdot, reSearch_lit]

/-- C7 counterexample: the query "." is a regex wildcard for the code, so
the View page displays both sample records although neither title nor
author contains "." as a substring — the displayed set is not, in general,
the set of case-insensitive substring matches. -/
theorem C7_counterexample :
    viewFilter "." sampleBooks = sampleBooks ∧
    sampleBooks.filter (fun b => substrCI "." b.title || substrCI "." b.author) = [] ∧
    "." ≠ "" := by
  refine ⟨rfl, rfl, by decide⟩

/-- C7 (amended): for every non-empty query containing no regex
metacharacter, the displayed set is exactly the records whose title or
author contains the query as a case-insensitive substring; the filter only
ever selects a sublist of the stored records (display-only); and on the
sample records, "dune" and "DUNE" select only the first record while "xyz"
selects none. -/
theorem C7_view_filter_amended :
    (∀ q books, q ≠ "" → (∀ c ∈ q.data, c ∉ metaChars) →
      viewFilter q books =
        books.filter (fun b => substrCI q b.title || substrCI q b.author)) ∧
    (∀ q books, (viewFilter q books).Sublist books) ∧
    viewFilter "dune" sampleBooks = [duneBook] ∧
    viewFilter "DUNE" sampleBooks = [duneBook] ∧
    viewFilter "xyz" sampleBooks = [] := by
  refine ⟨?_, ?_, rfl, rfl, rfl⟩
  · intro q books hq hmeta
    unfold viewFilter
    rw [if_neg hq]
    refine List.filter_congr (fun b _ => ?_)
    rw [strContainsCI_eq_substrCI q b.title hmeta,
      strContainsCI_eq_substrCI q b.author hmeta]
  · intro q books
    unfold viewFilter
    split
    · exact List.Sublist.refl _
    · exact List.filter_sublist _

/-- Witness for C7's amended theorem at a concrete input. -/
theorem C7_witness :
    ("dune" ≠ "" ∧ ∀ c ∈ "dune".data, c ∉ metaChars) ∧
    viewFilter "dune" sampleBooks =
      sampleBooks.filter (fun b => substrCI "dune" b.title || substrCI "dune" b.author) :=
  ⟨⟨by decide, by decide⟩,
    C7_view_filter_amended.1 "dune" sampleBooks (by decide) (by decide)⟩

/-! ### Analytics: grouped counts, descending order, stability -/

/-- Helper: membership in `dedupFirst`. -/
theorem mem_dedupFirst (l : List String) (g : String) : ∀ seen,
    (g ∈ dedupFirst seen l ↔ g ∈ l ∧ g ∉ seen) := by
  induction l with
  | nil => intro seen; simp [dedupFirst]
  | cons x xs ih =>
    intro seen
    unfold dedupFirst
    by_cases hx : x ∈ seen
    · rw [if_pos hx, ih seen]
      constructor
      · rintro ⟨h1, h2⟩
        exact ⟨List.mem_cons_of_mem x h1, h2⟩
      · rintro ⟨h1, h2⟩
        rcases List.mem_cons.1 h1 with rfl | h1
        · exact absurd hx h2
        · exact ⟨h1, h2⟩
    · rw [if_neg hx]
      simp only [List.mem_cons, ih (x :: seen)]
      constructor
      · rintro (rfl | ⟨h1, h2⟩)
        · exact ⟨.inl rfl, hx⟩
        · exact ⟨.inr h1, fun hg => h2 (.inr hg)⟩
      · rintro ⟨rfl | h1, h2⟩
        · exact .inl rfl
        · by_cases hgx : g = x
          · exact .inl hgx
          · exact .inr ⟨h1, fun hg => hg.elim hgx h2⟩

/-- Helper: an entry of the grouped result is a genre of the list paired
with its exact number of occurrences. -/
theorem mem_countsFirstSeen (gs : List String) (g : String) (k : Nat) :
    (g, k) ∈ countsFirstSeen gs ↔ g ∈ gs ∧ k = gs.count g := by
  unfold countsFirstSeen
  rw [List.mem_map]
  constructor
  · rintro ⟨g0, hg0, heq⟩
    injection heq with h1 h2
    subst h1
    subst h2
    exact ⟨((mem_dedupFirst gs g0 []).1 hg0).1, rfl⟩
  · rintro ⟨h1, rfl⟩
    exact ⟨g, (mem_dedupFirst gs g []).2 ⟨h1, by simp⟩, rfl⟩

/-- Helper: how `orderedInsert` interacts with filtering on a fixed count:
rows passed over on the way to the insertion point have a strictly larger
count, so an inserted element is the first of its count class. -/
theorem filter_orderedInsert_count (a : String × Nat) (l : List (String × Nat)) (k : Nat) :
    (List.orderedInsert countGE a l).filter (fun x => x.2 == k) =
      if a.2 == k then a :: l.filter (fun x => x.2 == k)
      else l.filter (fun x => x.2 == k) := by
  induction l with
  | nil =>
    cases hak : (a.2 == k) <;> simp [List.orderedInsert, List.filter, hak]
  | cons b l ih =>
    simp only [List.orderedInsert]
    by_cases hab : countGE a b
    · rw [if_pos hab]
      cases hak : (a.2 == k) <;> simp [List.filter_cons, hak]
    · rw [if_neg hab]
      have hlt : a.2 < b.2 := Nat.lt_of_not_le hab
      rw [List.filter_cons, ih]
      by_cases hak : a.2 = k
      · have hbk : (b.2 == k) = false := by
          simp only [beq_eq_false_iff_ne, ne_eq]
          omega
        have hak2 : (a.2 == k) = true := by simp [hak]
        simp [hbk, hak2, List.filter_cons]
      · have hak2 : (a.2 == k) = false := by simp [hak]
        simp [hak2, List.filter_cons]

/-- Helper: the descending insertion sort is stable — within one count
class the grouped (first-seen) order is preserved. -/
theorem filter_insertionSort_count (l : List (String × Nat)) (k : Nat) :
    (List.insertionSort countGE l).filter (fun x => x.2 == k) =
      l.filter (fun x => x.2 == k) := by
  induction l with
  | nil => rfl
  | cons a l ih =>
    show (List.orderedInsert countGE a (List.insertionSort countGE l)).filter _ = _
    rw [filter_orderedInsert_count, ih, List.filter_cons]

/-- C8: for a non-empty record list, the Analytics grouping pairs each
distinct genre with the number of records bearing it, the bars are in
descending count order, ties keep the first-seen order of the grouped
result, and the concrete example groups as specified. -/
theorem C8_analytics (books : List Book) (hne : books ≠ []) :
    (∀ g k, (g, k) ∈ genreCounts books ↔
      g ∈ books.map Book.genre ∧ k = (books.map Book.genre).count g) ∧
    List.Sorted countGE (genreCounts books) ∧
    (∀ k, (genreCounts books).filter (fun x => x.2 == k) =
      (countsFirstSeen (books.map Book.genre)).filter (fun x => x.2 == k)) ∧
    valueCounts ["Fiction", "Fiction", "Horror"] = [("Fiction", 2), ("Horror", 1)] := by
  refine ⟨?_, ?_, ?_, rfl⟩
  · intro g k
    unfold genreCounts valueCounts
    rw [List.mem_insertionSort]
    exact mem_countsFirstSeen _ g k
  · exact List.sorted_insertionSort countGE _
  · intro k
    exact filter_insertionSort_count _ k

/-- Witness for C8 at a concrete input. -/
theorem C8_witness :
    sampleBooks ≠ [] ∧
    ((∀ g k, (g, k) ∈ genreCounts sampleBooks ↔
        g ∈ sampleBooks.map Book.genre ∧ k = (sampleBooks.map Book.genre).count g) ∧
      List.Sorted countGE (genreCounts sampleBooks) ∧
      (∀ k, (genreCounts sampleBooks).filter (fun x => x.2 == k) =
        (countsFirstSeen (sampleBooks.map Book.genre)).filter (fun x => x.2 == k)) ∧
      valueCounts ["Fiction", "Fiction", "Horror"] = [("Fiction", 2), ("Horror", 1)]) :=
  ⟨by decide, C8_analytics sampleBooks (by decide)⟩
